import Mathlib

/-
Verification development for the pyprtg-api client library.

Shallow embedding of `src/prtg/api.py`, `src/prtg/auth.py` and
`src/prtg/exception.py`.  Network effects are represented explicitly:
functions return the list of HTTP requests they issue, and fallible
Python code is modelled with `Except`/`Option`.  Python exceptions are
modelled by the `PyError` type below, whose constructors correspond to
the concrete Python exception classes that can be raised by this code.
-/

namespace Prtg

/-- Python exception values raised by the library.
`httpErrorStatus s` is the generic `requests.HTTPError` produced by
`Response.raise_for_status()` for status `s`; `httpErrorMsg m` is the
`requests.HTTPError(error_msg)` raised in the 400 branch of
`_requests_get` (the message is `Optional` because `Element.text` can be
`None`).  `unauthorized`, `objectNotFound` and `duplicateObject` are the
classes of `src/prtg/exception.py` (`Unauthorized` is defined there but
never raised anywhere in `api.py`).  `attributeError` models the
`AttributeError` raised when `None.group(0)` / `root.find(..).text` is
evaluated on a missing match. -/
inductive PyError where
  | httpErrorStatus (status : Nat)
  | httpErrorMsg (msg : Option String)
  | unauthorized
  | objectNotFound (msg : Option String)
  | duplicateObject (msg : Option String)
  | valueError (msg : String)
  | attributeError
deriving DecidableEq, Repr

/-- The Python exception class of a `PyError` value.  Both HTTP error
variants are instances of the single class `requests.HTTPError`. -/
def PyError.cls : PyError → String
  | .httpErrorStatus _ => "HTTPError"
  | .httpErrorMsg _ => "HTTPError"
  | .unauthorized => "Unauthorized"
  | .objectNotFound _ => "ObjectNotFound"
  | .duplicateObject _ => "DuplicateObject"
  | .valueError _ => "ValueError"
  | .attributeError => "AttributeError"

/-- An outgoing HTTP request (method, path relative to the base url, and
query parameters), as issued through `_requests_get`/`_requests_post`. -/
structure HttpReq where
  method : String
  path : String
  params : List (String × String)
deriving DecidableEq, Repr

-- ------------------------------------------------------------------
-- src/prtg/auth.py
-- ------------------------------------------------------------------

/-- The three authentication strategies of `src/prtg/auth.py`
(`BasicAuth`, `BasicPasshash`, `BasicToken`). -/
inductive Auth where
  | BasicAuth (username password : String)
  | BasicPasshash (username passhash : String)
  | BasicToken (api_token : String)
deriving DecidableEq, Repr

/-- The query parameters each strategy passes to `r.prepare_url` in its
`__call__` method. -/
def authParams : Auth → List (String × String)
  | .BasicAuth u p => [("username", u), ("password", p)]
  | .BasicPasshash u h => [("username", u), ("passhash", h)]
  | .BasicToken t => [("apitoken", t)]

/-- A request being prepared: its url and accumulated query parameters. -/
structure Request where
  url : String
  query : List (String × String)
deriving DecidableEq, Repr

/-- `auth.__call__(r)`: `r.prepare_url(r.url, params)` merges the
strategy's parameters into the request's query string. -/
def applyAuth (a : Auth) (r : Request) : Request :=
  { r with query := r.query ++ authParams a }

-- ------------------------------------------------------------------
-- Transport retry configuration (ApiClient.__init__, lines 42-46):
-- Retry(total=retries, backoff_factor=backoff_factor,
--       status_forcelist=[500, 502, 503, 504])
-- ------------------------------------------------------------------

/-- The `status_forcelist` passed to `urllib3.util.retry.Retry` in
`ApiClient.__init__`. -/
def statusForcelist : List Nat := [500, 502, 503, 504]

/-- One run of urllib3's status-based retry loop for a GET.  `statuses n`
is the HTTP status of the `n`-th attempt's response.  A response whose
status is in the forcelist consumes one unit of the retry budget and the
request is re-issued; any other status ends the loop (the response is
handed back to `requests`).  Returns the number of attempts issued
starting from attempt index `n` with `retriesLeft` retries remaining. -/
def transportAttemptsGo (statuses : Nat → Nat) : Nat → Nat → Nat
  | 0, _ => 1
  | r + 1, n =>
    if statuses n ∈ statusForcelist then 1 + transportAttemptsGo statuses r (n + 1)
    else 1

/-- Total number of HTTP attempts issued for one logical request when the
client was constructed with `retries` (the `total=` budget of `Retry`). -/
def transportAttempts (retries : Nat) (statuses : Nat → Nat) : Nat :=
  transportAttemptsGo statuses retries 0

-- ------------------------------------------------------------------
-- ApiClient._requests_get error mapping (lines 48-74)
-- ------------------------------------------------------------------

/-- A parsed XML document as far as `_requests_get` inspects it:
`ET.fromstring` yields the root element; `root.find('error')` searches
the root's direct children only, and only each child's tag and text are
read, so children are modelled as (tag, text) pairs. -/
structure XmlElem where
  tag : String
  text : Option String
  children : List (String × Option String)
deriving DecidableEq, Repr

/-- `root.find('error')` followed by `.text`: the text of the first
direct child tagged `error`, or `none` when no such child exists (in
which case the Python code raises `AttributeError`). -/
def findErrorText (root : XmlElem) : Option (Option String) :=
  (root.children.find? fun c => c.fst == "error").map Prod.snd

/-- `ApiClient._requests_get`, as a function of the response's status
code and (parsed) body: `response.raise_for_status()` raises
`requests.HTTPError` exactly for statuses 400-599; the 400 handler
re-raises `HTTPError(root.find('error').text)`; every other HTTP error
is re-raised unchanged.  Statuses outside 400-599 (2xx, and also 3xx)
return the response. -/
def requests_get (status : Nat) (root : XmlElem) : Except PyError XmlElem :=
  if 400 ≤ status ∧ status < 600 then
    if status = 400 then
      match findErrorText root with
      | some t => .error (.httpErrorMsg t)
      | none => .error .attributeError
    else .error (.httpErrorStatus status)
  else .ok root

-- ------------------------------------------------------------------
-- ApiClient.__init__ (lines 32-46) and _validate_cred (lines 93-96)
-- ------------------------------------------------------------------

/-- `url.rstrip('/')`. -/
def rstripSlash (s : String) : String :=
  ⟨(s.data.reverse.dropWhile fun c => c == '/').reverse⟩

/-- The constructed client's state: the fields `__init__` assigns. -/
structure ApiClientState where
  url : String
  timeout : Option Nat
  retriesCfg : Nat
  auth : Option Auth
  requestsVerify : Bool
deriving DecidableEq, Repr

/-- The GET issued by `ApiClient._validate_cred`. -/
def validateCredReq : HttpReq :=
  ⟨"GET", "/api/healthstatus.json", []⟩

/-- `ApiClient.__init__`: strips trailing slashes from the url, stores
the configuration, builds the retrying session -- and issues no HTTP
request at all (in particular it never calls `_validate_cred`, despite
the class docstring "Validates credentials on __init__").  The second
component is the list of HTTP requests issued during construction. -/
def clientInit (url : String) (auth : Option Auth) (retries : Nat)
    (timeout : Option Nat) (verify : Bool) : ApiClientState × List HttpReq :=
  ({ url := rstripSlash url, timeout := timeout, retriesCfg := retries,
     auth := auth, requestsVerify := verify }, [])

-- ------------------------------------------------------------------
-- Entity records and the creation-confirmation loop
-- (ApiClient.add_group lines 315-354, ApiClient.add_device lines 470-513)
-- ------------------------------------------------------------------

/-- An entity record returned by the server's table listing: an opaque
snapshot compared only by full-record equality.  The fields used by the
spec's scenarios are `objid` and `name`; the remaining columns play no
role in any claim and are elided from the representative record type
(all comparisons in the code are whole-dict equality, which the derived
`DecidableEq` models). -/
structure Entity where
  objid : Nat
  name : String
deriving DecidableEq, Repr

/-- `next(x for x in after if x not in before)`: the first element of
`after` (in server-returned order) that is not present in `before`,
membership by full-record equality; `none` models the `StopIteration`
raised when every element of `after` already occurs in `before`. -/
def diffFirst : List Entity → List Entity → Option Entity
  | [], _ => none
  | x :: rest, before => if x ∉ before then some x else diffFirst rest before

/-- Result of running the tenacity `Retrying` loop of
`add_group`/`add_device` with bounded fuel: `found e` models the loop
body succeeding with record `e`; `retryError` models tenacity raising
`RetryError` once the stop condition holds after a failed attempt;
`fuelOut` is the model's marker for a run that is still polling when the
fuel is exhausted (the real loop would continue). -/
inductive ConfirmResult where
  | found (e : Entity)
  | retryError
  | fuelOut
deriving DecidableEq, Repr

/-- `stop_after_delay(self.timeout) if self.timeout else stop_never`:
Python truthiness sends both `None` and `0` to `stop_never`; a nonzero
timeout `d` yields `stop_after_delay(d)`. -/
def stopOf : Option Nat → Option Nat
  | none => none
  | some 0 => none
  | some (d + 1) => some (d + 1)

/-- The tenacity `Retrying` loop: attempt `n` re-runs the list query
(`polls n`) and evaluates the generator; tenacity always executes an
attempt first and consults the stop condition only after the attempt
fails, so at least one poll is always issued.  `elapsed` is the time
since the first attempt (discretised: `waits n` time units elapse
between attempt `n` and attempt `n+1`; `stop_after_delay d` fires as
soon as `d ≤ elapsed`).  Returns the loop's outcome together with the
number of polls issued. -/
def confirmGo (before : List Entity) (polls : Nat → List Entity)
    (waits : Nat → Nat) (stop : Option Nat) :
    Nat → Nat → Nat → ConfirmResult × Nat
  | n, _, 0 => (.fuelOut, n)
  | n, elapsed, fuel + 1 =>
    match diffFirst (polls n) before with
    | some e => (.found e, n + 1)
    | none =>
      match stop with
      | some d =>
        if d ≤ elapsed then (.retryError, n + 1)
        else confirmGo before polls waits stop (n + 1) (elapsed + waits n) fuel
      | none => confirmGo before polls waits stop (n + 1) (elapsed + waits n) fuel

/-- The confirmation loop as configured by the client: the stop
condition is derived from `self.timeout` via Python truthiness. -/
def confirmRun (timeout : Option Nat) (polls : Nat → List Entity)
    (waits : Nat → Nat) (before : List Entity) (fuel : Nat) :
    ConfirmResult × Nat :=
  confirmGo before polls waits (stopOf timeout) 0 0 fuel

deriving instance DecidableEq for Except

/-- The tail of `ApiClient.add_group` (lines 343-354): run the
confirmation loop against the pre-creation snapshot `dups`
(`duplicate_groups`); on success return the new record, on `RetryError`
raise `ObjectNotFound` (bare, no message).  `none` in the first
component again marks a run still polling when the fuel runs out. -/
def add_group_confirm (timeout : Option Nat) (polls : Nat → List Entity)
    (waits : Nat → Nat) (dups : List Entity) (fuel : Nat) :
    Option (Except PyError Entity) × Nat :=
  match confirmRun timeout polls waits dups fuel with
  | (.found e, k) => (some (.ok e), k)
  | (.retryError, k) => (some (.error (.objectNotFound none)), k)
  | (.fuelOut, k) => (none, k)

/-- The tail of `ApiClient.add_device` (lines 502-513): identical loop
against the `duplicate_devices` snapshot. -/
def add_device_confirm (timeout : Option Nat) (polls : Nat → List Entity)
    (waits : Nat → Nat) (dups : List Entity) (fuel : Nat) :
    Option (Except PyError Entity) × Nat :=
  match confirmRun timeout polls waits dups fuel with
  | (.found e, k) => (some (.ok e), k)
  | (.retryError, k) => (some (.error (.objectNotFound none)), k)
  | (.fuelOut, k) => (none, k)

/-- The spec's confirmation scenario: the first two polls return the
`before` snapshot unchanged; the third poll also shows the new record
with objid 2. -/
def scenarioPolls : Nat → List Entity := fun n =>
  if n < 2 then [⟨1, "A"⟩] else [⟨1, "A"⟩, ⟨2, "B"⟩]

-- ------------------------------------------------------------------
-- get_probe_by_name / get_group_by_name / get_device_by_name
-- (lines 174-194, 273-295, 430-450)
-- ------------------------------------------------------------------

/-- `ApiClient.get_probe_by_name`, as a function of the filtered result
list: `len(result) > 1` raises `DuplicateObject`, then `result[0]` is
returned, with the `IndexError` of an empty list converted to
`ObjectNotFound`. -/
def get_probe_by_name (result : List Entity) : Except PyError Entity :=
  if result.length > 1 then
    .error (.duplicateObject (some "Multiple probes with same name."))
  else
    match result with
    | [] => .error (.objectNotFound (some "No probe with matching name."))
    | x :: _ => .ok x

/-- `ApiClient.get_group_by_name`: same selection logic over the
filtered group list. -/
def get_group_by_name (result : List Entity) : Except PyError Entity :=
  if result.length > 1 then
    .error (.duplicateObject (some "Multiple groups with same name."))
  else
    match result with
    | [] => .error (.objectNotFound (some "No group with matching name."))
    | x :: _ => .ok x

/-- `ApiClient.get_device_by_name`: same selection logic over the
filtered device list. -/
def get_device_by_name (result : List Entity) : Except PyError Entity :=
  if result.length > 1 then
    .error (.duplicateObject (some "Multiple devices with same name."))
  else
    match result with
    | [] => .error (.objectNotFound (some "No device with matching name."))
    | x :: _ => .ok x

-- ------------------------------------------------------------------
-- ApiClient.set_priority (lines 818-835)
-- ------------------------------------------------------------------

/-- `ApiClient.set_priority`: values outside 1-5 raise `ValueError`
before the endpoint/params are even built; otherwise a single GET to
`/api/setpriority.htm` is issued.  The second component lists the HTTP
requests issued by the call. -/
def set_priority (id : Nat) (value : Int) : Except PyError Unit × List HttpReq :=
  if value < 1 ∨ value > 5 then
    (.error (.valueError "Priorty can only set between 1 - 5."), [])
  else
    (.ok (), [⟨"GET", "/api/setpriority.htm",
               [("id", toString id), ("prio", toString value)]⟩])

-- ------------------------------------------------------------------
-- ApiClient.set_tags (lines 655-665)
-- ------------------------------------------------------------------

/-- `tag.replace(' ', '-')`: both arguments are single characters, so
Python's replace-all is a character-wise map. -/
def sanitizeTag (cs : List Char) : List Char :=
  cs.map fun c => if c = ' ' then '-' else c

/-- `' '.join(ts)` on character lists. -/
def joinSp : List (List Char) → List Char
  | [] => []
  | [t] => t
  | t :: ts => t ++ ' ' :: joinSp ts

/-- Splitting on single spaces: the server's reading of the combined
string back into tags ("api accepts each space-separated word as a
tag", comment at lines 662-663). -/
def splitSp : List Char → List (List Char)
  | [] => [[]]
  | c :: rest =>
    if c = ' ' then [] :: splitSp rest
    else
      match splitSp rest with
      | [] => [[c]]
      | t :: ts => (c :: t) :: ts

/-- `' '.join([tag.replace(' ', '-') for tag in tags])`: the combined
tag representation computed by `set_tags`. -/
def combineTags (tags : List String) : String :=
  ⟨joinSp (tags.map fun t => sanitizeTag t.data)⟩

/-- The tags the server stores after receiving a combined tag string:
its space-separated words. -/
def splitTags (s : String) : List String :=
  (splitSp s.data).map fun cs => ⟨cs⟩

/-- `ApiClient.set_tags` issues one property-setting GET whose `value`
is the combined representation. -/
def set_tags (id : Nat) (tags : List String) : List HttpReq :=
  [⟨"GET", "/api/setobjectproperty.htm",
    [("id", toString id), ("name", "tags"), ("value", combineTags tags)]⟩]

-- ------------------------------------------------------------------
-- ApiClient._parse_obj_id (lines 98-109) and id_pattern (line 30)
-- ------------------------------------------------------------------

/-- Value of a hexadecimal digit, by code point (48-57 are the decimal
digits, 65-70 upper-case A-F, 97-102 lower-case a-f). -/
def hexVal (c : Char) : Option Nat :=
  let n := c.toNat
  if 48 ≤ n ∧ n ≤ 57 then some (n - 48)
  else if 65 ≤ n ∧ n ≤ 70 then some (n - 55)
  else if 97 ≤ n ∧ n ≤ 102 then some (n - 87)
  else none

/-- `urllib.parse.unquote`: decode `%XX` escapes, leaving invalid escape
sequences (and everything else) untouched.  Multi-byte UTF-8 sequences
are decoded byte by byte here; all urls in play are ASCII, where this
agrees with `unquote`. -/
def percentDecodeF : Nat → List Char → List Char
  | 0, l => l
  | _ + 1, [] => []
  | fuel + 1, c :: rest =>
    if c = '%' then
      match rest with
      | a :: b :: rest2 =>
        match hexVal a, hexVal b with
        | some ha, some hb => Char.ofNat (16 * ha + hb) :: percentDecodeF fuel rest2
        | _, _ => '%' :: percentDecodeF fuel rest
      | _ => '%' :: percentDecodeF fuel rest
    else c :: percentDecodeF fuel rest

/-- `percentDecode` with exact fuel: every step consumes at least one
character, so `l.length` steps always suffice and the fuel case is never
hit. -/
def percentDecode (l : List Char) : List Char :=
  percentDecodeF l.length l

/-- The lookbehind `(?<=(\?|&)id=)` of `id_pattern`, checked against the
reversed prefix of the scan position. -/
def matchesLB (pre : List Char) : Bool :=
  match pre with
  | a :: b :: c :: q :: _ => a == '=' && b == 'd' && c == 'i' && (q == '?' || q == '&')
  | _ => false

/-- `id_pattern.search(s, pos)`: scan left to right for the first
position (at or after `pos`, chars before it held reversed in `pre`)
whose character is a digit and whose lookbehind matches; the match is
the maximal digit run from there.  `none` models `search` returning
`None`. -/
def idScanGo : List Char → List Char → Option (List Char)
  | _, [] => none
  | pre, c :: rest =>
    if c.isDigit && matchesLB pre then some (c :: rest.takeWhile Char.isDigit)
    else idScanGo (c :: pre) rest

/-- `int(digits)` for a decimal digit string. -/
def digitsToNat (ds : List Char) : Nat :=
  ds.foldl (fun acc c => 10 * acc + (c.toNat - '0'.toNat)) 0

/-- `ApiClient._parse_obj_id(url)`:
`int(cls.id_pattern.search(urllib.parse.unquote(url), re.I).group(0))`.
Note the code passes `re.I` (= 2) as `search`'s positional `pos`
argument, so the scan starts at index 2 of the decoded string; since any
match needs the four-character lookbehind `?id=`/`&id=`, every possible
match starts at index ≥ 4 and the misplaced flag never changes the
result.  `none` models the `AttributeError` raised by `None.group(0)`
when there is no match. -/
def parse_obj_id (url : String) : Option Nat :=
  let s := percentDecode url.data
  (idScanGo (s.take 2).reverse (s.drop 2)).map digitsToNat

-- ==================================================================
-- Helper lemmas
-- ==================================================================

/-- When the generator yields a record, it is a member of `after`, it is
not in `before`, and every record before it in `after` is in `before`:
the first differing element in server-returned order. -/
theorem diffFirst_first_new : ∀ (after before : List Entity) (e : Entity),
    diffFirst after before = some e →
    e ∈ after ∧ e ∉ before ∧
      ∃ l₁ l₂, after = l₁ ++ e :: l₂ ∧ ∀ x ∈ l₁, x ∈ before := by
  intro after
  induction after with
  | nil => intro before e h; simp [diffFirst] at h
  | cons a as ih =>
    intro before e h
    by_cases hmem : a ∈ before
    · rw [diffFirst, if_neg (not_not_intro hmem)] at h
      obtain ⟨h1, h2, l₁, l₂, happ, hall⟩ := ih before e h
      refine ⟨List.mem_cons_of_mem _ h1, h2, a :: l₁, l₂,
        by rw [happ, List.cons_append], ?_⟩
      intro x hx
      rcases List.mem_cons.mp hx with rfl | hx
      · exact hmem
      · exact hall x hx
    · rw [diffFirst, if_pos hmem] at h
      injection h with h2
      subst h2
      exact ⟨List.mem_cons_self _ _, hmem, [], as, rfl, by simp⟩

/-- With `stop_never` and a poll stream that never shows a difference,
the loop keeps polling for as long as it is run. -/
theorem confirmGo_none_fuelOut (before : List Entity)
    (polls : Nat → List Entity) (waits : Nat → Nat)
    (hp : ∀ n, diffFirst (polls n) before = none) :
    ∀ fuel n elapsed,
      confirmGo before polls waits none n elapsed fuel
        = (ConfirmResult.fuelOut, n + fuel) := by
  intro fuel
  induction fuel with
  | zero => intro n elapsed; simp [confirmGo]
  | succ f ih =>
    intro n elapsed
    rw [confirmGo, hp n, ih (n + 1) (elapsed + waits n)]
    simp
    omega

/-- With `stop_after_delay d`, a diff-free poll stream and time that
advances by at least one unit between attempts, the loop raises
`RetryError` after at least one and at most `fuel` polls, provided it is
given enough fuel to reach the deadline. -/
theorem confirmGo_stop_retryError (before : List Entity)
    (polls : Nat → List Entity) (waits : Nat → Nat) (d : Nat)
    (hp : ∀ n, diffFirst (polls n) before = none)
    (hw : ∀ n, 1 ≤ waits n) :
    ∀ fuel n elapsed, 1 ≤ fuel → d < elapsed + fuel →
      ∃ k, confirmGo before polls waits (some d) n elapsed fuel
          = (ConfirmResult.retryError, k) ∧ n + 1 ≤ k ∧ k ≤ n + fuel := by
  intro fuel
  induction fuel with
  | zero => intro n elapsed h1 _; omega
  | succ f ih =>
    intro n elapsed _ hlt
    by_cases hstop : d ≤ elapsed
    · exact ⟨n + 1, by rw [confirmGo, hp n]; simp [hstop], Nat.le_refl _, by omega⟩
    · have hf : 1 ≤ f := by omega
      have hlt2 : d < elapsed + waits n + f := by
        have := hw n
        omega
      obtain ⟨k, heq, hk1, hk2⟩ := ih (n + 1) (elapsed + waits n) hf hlt2
      refine ⟨k, ?_, by omega, by omega⟩
      rw [confirmGo, hp n]
      simp only [hstop, if_false]
      exact heq

/-- Every character of a sanitised tag differs from the space
character. -/
theorem sanitizeTag_no_space (cs : List Char) : ∀ c ∈ sanitizeTag cs, c ≠ ' ' := by
  intro c hc
  simp only [sanitizeTag, List.mem_map] at hc
  obtain ⟨c2, _, rfl⟩ := hc
  by_cases h2 : c2 = ' ' <;> simp [h2]

/-- Sanitising a space-free tag changes nothing. -/
theorem sanitizeTag_id_of_no_space : ∀ cs : List Char,
    (∀ c ∈ cs, c ≠ ' ') → sanitizeTag cs = cs := by
  intro cs
  induction cs with
  | nil => intro _; rfl
  | cons c rest ih =>
    intro h
    have hc : c ≠ ' ' := h c (List.mem_cons_self _ _)
    simp only [sanitizeTag, List.map_cons, if_neg hc]
    have := ih fun c2 hc2 => h c2 (List.mem_cons_of_mem _ hc2)
    simp only [sanitizeTag] at this
    rw [this]

/-- Sanitising is idempotent on a single tag. -/
theorem sanitizeTag_idem (cs : List Char) :
    sanitizeTag (sanitizeTag cs) = sanitizeTag cs :=
  sanitizeTag_id_of_no_space _ (sanitizeTag_no_space cs)

/-- Splitting a space-free word yields that word alone. -/
theorem splitSp_no_space : ∀ t : List Char,
    (∀ c ∈ t, c ≠ ' ') → splitSp t = [t] := by
  intro t
  induction t with
  | nil => intro _; rfl
  | cons c rest ih =>
    intro h
    have hc : c ≠ ' ' := h c (List.mem_cons_self _ _)
    rw [splitSp, if_neg hc, ih fun c2 hc2 => h c2 (List.mem_cons_of_mem _ hc2)]

/-- Splitting after a leading space-free word peels that word off. -/
theorem splitSp_append : ∀ (t r : List Char),
    (∀ c ∈ t, c ≠ ' ') → splitSp (t ++ ' ' :: r) = t :: splitSp r := by
  intro t
  induction t with
  | nil => intro r _; simp [splitSp]
  | cons c rest ih =>
    intro r h
    have hc : c ≠ ' ' := h c (List.mem_cons_self _ _)
    rw [List.cons_append, splitSp, if_neg hc,
      ih r fun c2 hc2 => h c2 (List.mem_cons_of_mem _ hc2)]

/-- Splitting undoes joining on a nonempty list of space-free words. -/
theorem splitSp_joinSp : ∀ ts : List (List Char),
    (∀ t ∈ ts, ∀ c ∈ t, c ≠ ' ') → ts ≠ [] → splitSp (joinSp ts) = ts := by
  intro ts
  induction ts with
  | nil => intro _ hne; cases hne rfl
  | cons t rest ih =>
    intro h _
    cases rest with
    | nil => exact splitSp_no_space t (h t (List.mem_cons_self _ _))
    | cons t2 rest2 =>
      have hne2 : t2 :: rest2 ≠ [] := List.cons_ne_nil _ _
      rw [joinSp, splitSp_append t _ (h t (List.mem_cons_self _ _)),
        ih (fun u hu => h u (List.mem_cons_of_mem _ hu)) hne2]
      exact hne2

/-- Sanitising twice along a list equals sanitising once. -/
theorem map_sanitize_twice : ∀ l : List String,
    l.map (fun s => sanitizeTag (sanitizeTag s.data))
      = l.map fun s => sanitizeTag s.data := by
  intro l
  induction l with
  | nil => rfl
  | cons s rest ih => simp only [List.map_cons, sanitizeTag_idem, ih]

/-- Re-applying the `set_tags` transformation to the tags the server
reads back from the combined string reproduces the combined string. -/
theorem combineTags_idem (ts : List String) :
    combineTags (splitTags (combineTags ts)) = combineTags ts := by
  cases ts with
  | nil => rfl
  | cons t rest =>
    have hms : ∀ u ∈ (t :: rest).map fun s => sanitizeTag s.data,
        ∀ c ∈ u, c ≠ ' ' := by
      intro u hu
      simp only [List.mem_map] at hu
      obtain ⟨s, _, rfl⟩ := hu
      exact sanitizeTag_no_space s.data
    have hne : (t :: rest).map (fun s => sanitizeTag s.data) ≠ [] := by simp
    simp only [combineTags, splitTags]
    rw [splitSp_joinSp _ hms hne]
    congr 1
    congr 1
    rw [List.map_map, List.map_map]
    exact map_sanitize_twice (t :: rest)

/-- `matchesLB` on a reversed prefix means the prefix ends in the
four-character marker `?id=` or `&id=`. -/
theorem matchesLB_reverse (l : List Char) (h : matchesLB l.reverse = true) :
    ∃ l0 q, l = l0 ++ [q, 'i', 'd', '='] ∧ (q = '?' ∨ q = '&') := by
  cases hr : l.reverse with
  | nil => rw [hr] at h; simp [matchesLB] at h
  | cons c1 r1 =>
    cases r1 with
    | nil => rw [hr] at h; simp [matchesLB] at h
    | cons c2 r2 =>
      cases r2 with
      | nil => rw [hr] at h; simp [matchesLB] at h
      | cons c3 r3 =>
        cases r3 with
        | nil => rw [hr] at h; simp [matchesLB] at h
        | cons q t =>
          rw [hr] at h
          simp only [matchesLB, Bool.and_eq_true, beq_iff_eq, Bool.or_eq_true] at h
          obtain ⟨⟨⟨h1, h2⟩, h3⟩, hq⟩ := h
          subst h1; subst h2; subst h3
          refine ⟨t.reverse, q, ?_, hq⟩
          have hl : l = ('=' :: 'd' :: 'i' :: q :: t).reverse := by
            rw [← hr, List.reverse_reverse]
          rw [hl]
          simp

/-- The first element left by `dropWhile Char.isDigit` is not a digit:
the run taken by `takeWhile` is maximal. -/
theorem dropWhile_head_not : ∀ (l : List Char) (d : Char),
    (l.dropWhile Char.isDigit).head? = some d → d.isDigit = false := by
  intro l
  induction l with
  | nil => intro d h; simp [List.dropWhile] at h
  | cons c rest ih =>
    intro d h
    rw [List.dropWhile_cons] at h
    by_cases hc : c.isDigit = true
    · rw [if_pos hc] at h
      exact ih d h
    · rw [if_neg hc] at h
      rw [List.head?_cons] at h
      injection h with h2
      subst h2
      cases hb : c.isDigit with
      | true => exact absurd hb hc
      | false => rfl

/-- List surgery: a position strictly inside the prefix `A` of
`A ++ b :: B` splits `A` itself. -/
theorem append_cons_split_of_lt {α : Type} : ∀ (xs A B ys : List α) (b y : α),
    A ++ b :: B = xs ++ y :: ys → xs.length < A.length →
    ∃ t, A = xs ++ y :: t := by
  intro xs
  induction xs with
  | nil =>
    intro A B ys b y heq hlen
    cases A with
    | nil => simp at hlen
    | cons a A2 =>
      rw [List.cons_append, List.nil_append] at heq
      injection heq with h1 _
      exact ⟨A2, by rw [h1]; rfl⟩
  | cons x xs2 ih =>
    intro A B ys b y heq hlen
    cases A with
    | nil =>
      simp only [List.length_cons, List.length_nil] at hlen
      omega
    | cons a A2 =>
      rw [List.cons_append, List.cons_append] at heq
      injection heq with h1 h2
      obtain ⟨t, ht⟩ := ih A2 B ys b y h2 (by
        simp only [List.length_cons] at hlen
        omega)
      refine ⟨t, ?_⟩
      rw [List.cons_append, h1, ht]

/-- List surgery: a prefix at least as long as `T` in an equation
`T ++ X = m ++ Y` extends `T`. -/
theorem append_extend_of_le {α : Type} : ∀ (T m X Y : List α),
    T ++ X = m ++ Y → T.length ≤ m.length → ∃ u, m = T ++ u := by
  intro T
  induction T with
  | nil => intro m X Y _ _; exact ⟨m, rfl⟩
  | cons a T2 ih =>
    intro m X Y heq hlen
    cases m with
    | nil =>
      simp only [List.length_cons, List.length_nil] at hlen
      omega
    | cons b m2 =>
      rw [List.cons_append, List.cons_append] at heq
      injection heq with h1 h2
      obtain ⟨u, hu⟩ := ih m2 X Y h2 (by
        simp only [List.length_cons] at hlen
        omega)
      refine ⟨u, ?_⟩
      rw [List.cons_append, ← h1, hu]

/-- Soundness and first-match property of the regex scan: a returned
match is a digit run occurring in the scanned text with a matching
lookbehind, and at every earlier scanned position the regex condition
(digit with matching lookbehind) fails. -/
theorem idScanGo_sound : ∀ (cs pre ds : List Char),
    idScanGo pre cs = some ds →
    ∃ l₁ c l₂, cs = l₁ ++ c :: l₂ ∧ c.isDigit = true ∧
      matchesLB (l₁.reverse ++ pre) = true ∧
      ds = c :: l₂.takeWhile Char.isDigit ∧
      ∀ m₁ c2 m₂, l₁ = m₁ ++ c2 :: m₂ →
        (c2.isDigit && matchesLB (m₁.reverse ++ pre)) = false := by
  intro cs
  induction cs with
  | nil => intro pre ds h; simp [idScanGo] at h
  | cons c rest ih =>
    intro pre ds h
    rw [idScanGo] at h
    by_cases hcond : (c.isDigit && matchesLB pre) = true
    · rw [if_pos hcond] at h
      injection h with h2
      subst h2
      obtain ⟨hd, hlb⟩ := Bool.and_eq_true_iff.mp hcond
      refine ⟨[], c, rest, rfl, hd, by simpa using hlb, rfl, ?_⟩
      intro m₁ c2 m₂ hm
      exfalso
      have hlen := congrArg List.length hm
      simp only [List.length_nil, List.length_append, List.length_cons] at hlen
      omega
    · rw [if_neg hcond] at h
      obtain ⟨l₁, c2, l₂, happ, hd, hlb, hds, hfirst⟩ := ih (c :: pre) ds h
      refine ⟨c :: l₁, c2, l₂, by rw [happ, List.cons_append], hd, ?_, hds, ?_⟩
      · rw [List.reverse_cons, List.append_assoc]
        simpa using hlb
      · intro m₁ c3 m₂ hm
        cases m₁ with
        | nil =>
          rw [List.nil_append] at hm
          injection hm with h1 _
          subst h1
          cases hb : (c.isDigit && matchesLB pre) with
          | true => exact absurd hb hcond
          | false => simpa using hb
        | cons c4 m₁2 =>
          rw [List.cons_append] at hm
          injection hm with h1 h2
          subst h1
          have hff := hfirst m₁2 c3 m₂ h2
          rw [List.reverse_cons, List.append_assoc]
          simpa using hff

-- ==================================================================
-- Claim theorems
-- ==================================================================

/-- Claim C1 (code bug evidence): `ApiClient.__init__` issues no HTTP
request whatsoever — in particular it never performs the
credential-validation GET against `/api/healthstatus.json` — and always
returns a constructed client, even with invalid credentials, although
the class docstring states "Validates credentials on __init__" and
`_validate_cred` exists for that purpose. -/
theorem clientInit_issues_no_request :
    (∀ url auth retries timeout verify,
      (clientInit url auth retries timeout verify).2 = []) ∧
    (clientInit "https://prtg.example.com/"
      (some (Auth.BasicAuth "user" "wrongpassword")) 5 none true).2 = [] ∧
    validateCredReq ∉ (clientInit "https://prtg.example.com/"
      (some (Auth.BasicAuth "user" "wrongpassword")) 5 none true).2 ∧
    (clientInit "https://prtg.example.com/"
        (some (Auth.BasicAuth "user" "wrongpassword")) 5 none true).1.url
      = "https://prtg.example.com" := by
  refine ⟨fun _ _ _ _ _ => rfl, rfl, by decide, by decide⟩

/-- Claim C2 counterexample: with a configured deadline of 0 and a poll
stream that never shows a new record, the confirmation loop of
`add_group` does not fail immediately with the creation-not-confirmed
error and it does issue polls: `timeout = 0` is falsy in Python, so the
stop condition becomes `stop_never` and the loop is still polling (three
polls issued) after three iterations, instead of having raised
`ObjectNotFound` after zero polls as the claim requires. -/
theorem add_group_zero_deadline_counterexample :
    add_group_confirm (some 0) (fun _ => ([] : List Entity)) (fun _ => 1) [] 3
      = (none, 3) ∧
    (add_group_confirm (some 0) (fun _ => ([] : List Entity)) (fun _ => 1) [] 3).2 ≠ 0 ∧
    (add_group_confirm (some 0) (fun _ => ([] : List Entity)) (fun _ => 1) [] 3).1
      ≠ some (Except.error (PyError.objectNotFound none)) := by
  decide

/-- Claim C2 (amended): a configured deadline of 0 is treated as no
deadline at all (`stop_after_delay(self.timeout) if self.timeout else
stop_never` with falsy 0), so with no new record ever visible the
confirmer keeps polling forever and never raises; at least one poll is
always issued before any failure; and when a positive deadline is
exceeded the failure raised is `ObjectNotFound`, an exception class
distinct from the transport error class `requests.HTTPError`.  The same
loop is shared verbatim by `add_device`. -/
theorem add_group_deadline_behavior (d : Nat) (polls : Nat → List Entity)
    (waits : Nat → Nat) (dups : List Entity)
    (hd : 1 ≤ d)
    (hp : ∀ n, diffFirst (polls n) dups = none)
    (hw : ∀ n, 1 ≤ waits n) :
    (∀ fuel, add_group_confirm (some 0) polls waits dups fuel = (none, fuel)) ∧
    (∃ k, 1 ≤ k ∧ add_group_confirm (some d) polls waits dups (d + 1)
        = (some (Except.error (PyError.objectNotFound none)), k)) ∧
    (∀ fuel, add_device_confirm (some 0) polls waits dups fuel = (none, fuel)) ∧
    (PyError.objectNotFound none).cls = "ObjectNotFound" ∧
    (∀ s, (PyError.httpErrorStatus s).cls = "HTTPError") ∧
    (∀ m, (PyError.httpErrorMsg m).cls = "HTTPError") := by
  have hzero : ∀ fuel,
      confirmRun (some 0) polls waits dups fuel = (ConfirmResult.fuelOut, fuel) := by
    intro fuel
    show confirmGo dups polls waits (stopOf (some 0)) 0 0 fuel = _
    rw [stopOf, confirmGo_none_fuelOut dups polls waits hp fuel 0 0]
    simp
  obtain ⟨e, rfl⟩ : ∃ e, d = e + 1 := ⟨d - 1, by omega⟩
  have hstop : stopOf (some (e + 1)) = some (e + 1) := rfl
  obtain ⟨k, heq, hk1, _⟩ :=
    confirmGo_stop_retryError dups polls waits (e + 1) hp hw (e + 2) 0 0
      (by omega) (by omega)
  refine ⟨?_, ⟨k, by omega, ?_⟩, ?_, rfl, fun s => rfl, fun m => rfl⟩
  · intro fuel
    rw [add_group_confirm, hzero fuel]
  · rw [add_group_confirm]
    show (match confirmGo dups polls waits (stopOf (some (e + 1))) 0 0 (e + 1 + 1) with
      | (ConfirmResult.found e, k) => (some (Except.ok e), k)
      | (ConfirmResult.retryError, k) =>
          (some (Except.error (PyError.objectNotFound none)), k)
      | (ConfirmResult.fuelOut, k) => ((none : Option (Except PyError Entity)), k)) = _
    rw [hstop]
    have : e + 1 + 1 = e + 2 := rfl
    rw [this, heq]
  · intro fuel
    rw [add_device_confirm, hzero fuel]

/-- Claim C2 witness: the amended behaviour at the concrete inputs
deadline 2, empty snapshot, polls that always return the empty list and
unit waits. -/
theorem add_group_deadline_witness :
    add_group_confirm (some 0) (fun _ => ([] : List Entity)) (fun _ => 1) [] 7
      = (none, 7) ∧
    (∃ k, 1 ≤ k ∧ add_group_confirm (some 2) (fun _ => ([] : List Entity))
        (fun _ => 1) [] 3
      = (some (Except.error (PyError.objectNotFound none)), k)) :=
  ⟨(add_group_deadline_behavior 2 (fun _ => []) (fun _ => 1) []
      (by omega) (fun _ => rfl) (fun _ => Nat.le_refl 1)).1 7,
   (add_group_deadline_behavior 2 (fun _ => []) (fun _ => 1) []
      (by omega) (fun _ => rfl) (fun _ => Nat.le_refl 1)).2.1⟩

/-- Claim C3 counterexample: a GET receiving status 401 raises the
generic `requests.HTTPError` — the very same exception class raised for
404 — not the distinct credential-failure class (`Unauthorized`, which
the library defines but never raises), so non-2xx responses are not
mapped to a typed per-status error taxonomy. -/
theorem requests_get_typed_taxonomy_counterexample :
    requests_get 401 ⟨"prtg", none, []⟩
      = Except.error (PyError.httpErrorStatus 401) ∧
    requests_get 404 ⟨"prtg", none, []⟩
      = Except.error (PyError.httpErrorStatus 404) ∧
    (PyError.httpErrorStatus 401).cls = (PyError.httpErrorStatus 404).cls ∧
    requests_get 401 ⟨"prtg", none, []⟩ ≠ Except.error PyError.unauthorized := by
  decide

/-- Claim C3 (amended): every GET whose response status is in 400-599
fails with `requests.HTTPError` (a single exception class, not a typed
taxonomy): status 400 carries the text of the first `<error>` node of
the XML body (or raises `AttributeError` if no such node exists), and
every other 4xx/5xx status re-raises the generic `HTTPError` for that
status; statuses below 400 (including 3xx) return the response. -/
theorem requests_get_error_mapping (status : Nat) (root : XmlElem) :
    (status < 400 ∨ 600 ≤ status → requests_get status root = .ok root) ∧
    (400 ≤ status → status < 600 → status ≠ 400 →
      requests_get status root = .error (.httpErrorStatus status)) ∧
    (∀ t, findErrorText root = some t →
      requests_get 400 root = .error (.httpErrorMsg t)) ∧
    (findErrorText root = none → requests_get 400 root = .error .attributeError) ∧
    (∀ s, (PyError.httpErrorStatus s).cls = "HTTPError") ∧
    (∀ m, (PyError.httpErrorMsg m).cls = "HTTPError") := by
  refine ⟨?_, ?_, ?_, ?_, fun s => rfl, fun m => rfl⟩
  · intro h
    have hno : ¬(400 ≤ status ∧ status < 600) := by omega
    rw [requests_get, if_neg hno]
  · intro h1 h2 h3
    rw [requests_get, if_pos ⟨h1, h2⟩, if_neg h3]
  · intro t ht
    rw [requests_get, if_pos ⟨by omega, by omega⟩, if_pos rfl, ht]
  · intro ht
    rw [requests_get, if_pos ⟨by omega, by omega⟩, if_pos rfl, ht]

/-- Claim C3 witness: the amended mapping at concrete statuses 200, 503
and 400 with an `<error>` body. -/
theorem requests_get_error_mapping_witness :
    requests_get 200 ⟨"prtg", none, []⟩ = .ok ⟨"prtg", none, []⟩ ∧
    requests_get 503 ⟨"prtg", none, []⟩
      = .error (PyError.httpErrorStatus 503) ∧
    requests_get 400 ⟨"prtg", none, [("error", some "bad request param")]⟩
      = .error (PyError.httpErrorMsg (some "bad request param")) :=
  ⟨(requests_get_error_mapping 200 ⟨"prtg", none, []⟩).1 (Or.inl (by omega)),
   (requests_get_error_mapping 503 ⟨"prtg", none, []⟩).2.1
     (by omega) (by omega) (by omega),
   (requests_get_error_mapping 400
       ⟨"prtg", none, [("error", some "bad request param")]⟩).2.2.1
     (some "bad request param") (by decide)⟩

/-- Claim C4: the creation confirmer detects the new object as the first
element of `after` that is not in `before` (full-record equality, server
order), and in the spec's scenario — `before = [{objid 1, name A}]`, two
polls returning `before`, a third returning the extra record
`{objid 2, name B}` — it returns that record after three polls (the
initial poll plus exactly two retried polls). -/
theorem diff_confirm_scenario (after before : List Entity) (e : Entity)
    (h : diffFirst after before = some e) :
    (e ∈ after ∧ e ∉ before ∧
      ∃ l₁ l₂, after = l₁ ++ e :: l₂ ∧ ∀ x ∈ l₁, x ∈ before) ∧
    confirmRun none scenarioPolls (fun _ => 1) [⟨1, "A"⟩] 10
      = (ConfirmResult.found ⟨2, "B"⟩, 3) :=
  ⟨diffFirst_first_new after before e h, by decide⟩

/-- Claim C4 witness: the diff at the scenario's third poll. -/
theorem diff_confirm_scenario_witness :
    ((⟨2, "B"⟩ : Entity) ∈ [(⟨1, "A"⟩ : Entity), ⟨2, "B"⟩] ∧
      (⟨2, "B"⟩ : Entity) ∉ [(⟨1, "A"⟩ : Entity)] ∧
      ∃ l₁ l₂, [(⟨1, "A"⟩ : Entity), ⟨2, "B"⟩] = l₁ ++ ⟨2, "B"⟩ :: l₂ ∧
        ∀ x ∈ l₁, x ∈ [(⟨1, "A"⟩ : Entity)]) ∧
    confirmRun none scenarioPolls (fun _ => 1) [⟨1, "A"⟩] 10
      = (ConfirmResult.found ⟨2, "B"⟩, 3) :=
  diff_confirm_scenario [⟨1, "A"⟩, ⟨2, "B"⟩] [⟨1, "A"⟩] ⟨2, "B"⟩ (by decide)

/-- Claim C5: the transport's status-based retry fires only for response
statuses in the configured forcelist [500, 502, 503, 504], re-attempting
up to the configured `retries` budget (so `retries + 1` attempts in
total when every response is retryable); any other status — 400 in
particular — ends the loop at exactly one attempt. -/
theorem transport_retry_policy (retries : Nat) (statuses : Nat → Nat) :
    (statuses 0 ∉ statusForcelist → transportAttempts retries statuses = 1) ∧
    ((∀ n, statuses n ∈ statusForcelist) →
      transportAttempts retries statuses = retries + 1) ∧
    statusForcelist = [500, 502, 503, 504] ∧
    400 ∉ statusForcelist ∧ 404 ∉ statusForcelist := by
  have hall : ∀ (f : Nat → Nat), (∀ n, f n ∈ statusForcelist) →
      ∀ r n, transportAttemptsGo f r n = r + 1 := by
    intro f hf r
    induction r with
    | zero => intro n; rfl
    | succ r2 ih =>
      intro n
      rw [transportAttemptsGo, if_pos (hf n), ih (n + 1)]
      omega
  refine ⟨?_, fun hf => hall statuses hf retries 0, rfl, by decide, by decide⟩
  intro h0
  cases retries with
  | zero => rfl
  | succ r => rw [transportAttempts, transportAttemptsGo, if_neg h0]

/-- Claim C5 witness: a 400 response is attempted exactly once; an
all-503 stream with `retries = 5` is attempted six times. -/
theorem transport_retry_policy_witness :
    transportAttempts 5 (fun _ => 400) = 1 ∧
    transportAttempts 5 (fun _ => 503) = 5 + 1 :=
  ⟨(transport_retry_policy 5 (fun _ => 400)).1 (by decide),
   (transport_retry_policy 5 (fun _ => 503)).2.1 (fun _ => by decide)⟩

/-- Claim C6: `_parse_obj_id` percent-decodes the URL and returns the
FIRST integer following an `id=` key preceded by `?` or `&`: a returned
value comes from such an occurrence in the decoded string, its digit run
is maximal (the next character, if any, is not a digit), and no scanned
position before the match (index ≥ 2, the misplaced `re.I`-as-`pos`
offset) carries a digit with a matching lookbehind — so for
`?id=7&id=42` only 7 qualifies.  `extract("https://host/x?foo=1&id=42")`
returns 42 (also through percent-encoding), `"https://host/x?id=7&id=42"`
returns the first id 7, and `extract("https://host/x?idx=42")` fails
with `AttributeError` (modelled `none`) rather than returning 0. -/
theorem parse_obj_id_spec (url : String) (n : Nat)
    (h : parse_obj_id url = some n) :
    (∃ l₀ q ds rest,
      percentDecode url.data = l₀ ++ q :: 'i' :: 'd' :: '=' :: (ds ++ rest) ∧
      (q = '?' ∨ q = '&') ∧ ds ≠ [] ∧ (∀ c ∈ ds, c.isDigit = true) ∧
      (∀ d, rest.head? = some d → d.isDigit = false) ∧
      (∀ m₁ c2 m₂, percentDecode url.data = m₁ ++ c2 :: m₂ →
        2 ≤ m₁.length → m₁.length < l₀.length + 4 →
        ¬(c2.isDigit = true ∧ matchesLB m₁.reverse = true)) ∧
      n = digitsToNat ds) ∧
    parse_obj_id "https://host/x?foo=1&id=42" = some 42 ∧
    parse_obj_id "https://host/x%3Ffoo%3D1%26id%3D42" = some 42 ∧
    parse_obj_id "https://host/x?id=7&id=42" = some 7 ∧
    parse_obj_id "https://host/x?idx=42" = none := by
  refine ⟨?_, by decide, by decide, by decide, by decide⟩
  rw [parse_obj_id] at h
  obtain ⟨ds, hscan, hds⟩ := Option.map_eq_some'.mp h
  obtain ⟨l₁, c, l₂, happ, hdig, hlb, hmatch, hfirst⟩ :=
    idScanGo_sound _ _ _ hscan
  have hlb2 : matchesLB ((percentDecode url.data).take 2 ++ l₁).reverse = true := by
    rw [List.reverse_append]
    exact hlb
  obtain ⟨l0, q, hdecomp, hq⟩ := matchesLB_reverse _ hlb2
  have hsplit : percentDecode url.data
      = (percentDecode url.data).take 2 ++ (percentDecode url.data).drop 2 :=
    (List.take_append_drop 2 _).symm
  refine ⟨l0, q, c :: l₂.takeWhile Char.isDigit, l₂.dropWhile Char.isDigit,
    ?_, hq, List.cons_ne_nil _ _, ?_, ?_, ?_, ?_⟩
  · rw [hsplit, happ, ← List.append_assoc, hdecomp]
    simp [List.append_assoc, List.takeWhile_append_dropWhile]
  · intro c2 hc2
    rcases List.mem_cons.mp hc2 with rfl | hc2
    · exact hdig
    · exact List.mem_takeWhile_imp hc2
  · intro d hd
    exact dropWhile_head_not l₂ d hd
  · intro m₁ c2 m₂ hm hm2 hmlt
    have hA : ((percentDecode url.data).take 2 ++ l₁) ++ c :: l₂
        = m₁ ++ c2 :: m₂ := by
      rw [List.append_assoc, ← happ, ← hsplit]
      exact hm
    have hlenT : ((percentDecode url.data).take 2).length ≤ m₁.length := by
      rw [List.length_take]
      exact le_trans (Nat.min_le_left _ _) hm2
    have hlenA : m₁.length < ((percentDecode url.data).take 2 ++ l₁).length := by
      have hcong := congrArg List.length hdecomp
      simp only [List.length_append, List.length_cons, List.length_nil] at hcong
      simp only [List.length_append]
      omega
    obtain ⟨t, ht⟩ := append_cons_split_of_lt m₁
      ((percentDecode url.data).take 2 ++ l₁) l₂ m₂ c c2 hA hlenA
    obtain ⟨u, hu⟩ := append_extend_of_le ((percentDecode url.data).take 2)
      m₁ l₁ (c2 :: t) ht hlenT
    have hl₁ : l₁ = u ++ c2 :: t := by
      have hTT : (percentDecode url.data).take 2 ++ l₁
          = (percentDecode url.data).take 2 ++ (u ++ c2 :: t) := by
        rw [ht, hu, List.append_assoc]
      exact List.append_cancel_left hTT
    have hff := hfirst u c2 t hl₁
    rintro ⟨hd2, hlb3⟩
    rw [hu, List.reverse_append] at hlb3
    rw [hd2, hlb3] at hff
    simp at hff
  · rw [← hds, hmatch]

/-- Claim C6 witness: the full decomposition — marker occurrence,
maximal digit run and no earlier match — at the concrete url
`https://host/x?foo=1&id=42`. -/
theorem parse_obj_id_spec_witness :
    (∃ l₀ q ds rest,
      percentDecode ("https://host/x?foo=1&id=42").data
        = l₀ ++ q :: 'i' :: 'd' :: '=' :: (ds ++ rest) ∧
      (q = '?' ∨ q = '&') ∧ ds ≠ [] ∧ (∀ c ∈ ds, c.isDigit = true) ∧
      (∀ d, rest.head? = some d → d.isDigit = false) ∧
      (∀ m₁ c2 m₂,
        percentDecode ("https://host/x?foo=1&id=42").data = m₁ ++ c2 :: m₂ →
        2 ≤ m₁.length → m₁.length < l₀.length + 4 →
        ¬(c2.isDigit = true ∧ matchesLB m₁.reverse = true)) ∧
      42 = digitsToNat ds) ∧
    parse_obj_id "https://host/x?foo=1&id=42" = some 42 ∧
    parse_obj_id "https://host/x%3Ffoo%3D1%26id%3D42" = some 42 ∧
    parse_obj_id "https://host/x?id=7&id=42" = some 7 ∧
    parse_obj_id "https://host/x?idx=42" = none :=
  parse_obj_id_spec "https://host/x?foo=1&id=42" 42 (by decide)

/-- Claim C7: each authentication strategy attaches exactly its
documented query parameters and no others — username+password attaches
`username` and `password`, username+passhash attaches `username` and
`passhash` (and never a `password` field), and the token strategy
attaches only `apitoken`. -/
theorem auth_attaches_exact_params (u p hsh t : String) (r : Request) :
    applyAuth (.BasicAuth u p) r
      = { r with query := r.query ++ [("username", u), ("password", p)] } ∧
    applyAuth (.BasicPasshash u hsh) r
      = { r with query := r.query ++ [("username", u), ("passhash", hsh)] } ∧
    applyAuth (.BasicToken t) r
      = { r with query := r.query ++ [("apitoken", t)] } ∧
    (authParams (.BasicAuth u p)).map Prod.fst = ["username", "password"] ∧
    (authParams (.BasicPasshash u hsh)).map Prod.fst = ["username", "passhash"] ∧
    (authParams (.BasicToken t)).map Prod.fst = ["apitoken"] ∧
    "password" ∉ (authParams (.BasicPasshash u hsh)).map Prod.fst := by
  refine ⟨rfl, rfl, rfl, rfl, rfl, rfl, ?_⟩
  simp [authParams]

/-- Claim C8: `set_tags` replaces each internal space with a hyphen and
joins the entries with single spaces (`["a b", "c"]` becomes
`"a-b c"`), and re-applying the transformation to the tags the server
reads back from the combined string (its space-separated words) leaves
the combined representation unchanged. -/
theorem set_tags_combined_idempotent (ts : List String) :
    combineTags ["a b", "c"] = "a-b c" ∧
    combineTags (splitTags (combineTags ts)) = combineTags ts ∧
    set_tags 1 ["a b", "c"] = [⟨"GET", "/api/setobjectproperty.htm",
      [("id", "1"), ("name", "tags"), ("value", "a-b c")]⟩] :=
  ⟨by decide, combineTags_idem ts, by decide⟩

/-- Claim C9: the by-name lookups raise `ObjectNotFound` on an empty
filtered result, `DuplicateObject` when more than one record matches,
and return the single record otherwise — identically for probes, groups
and devices. -/
theorem get_by_name_selection (result : List Entity) :
    (result = [] →
      get_probe_by_name result
        = .error (.objectNotFound (some "No probe with matching name.")) ∧
      get_group_by_name result
        = .error (.objectNotFound (some "No group with matching name.")) ∧
      get_device_by_name result
        = .error (.objectNotFound (some "No device with matching name."))) ∧
    (result.length > 1 →
      get_probe_by_name result
        = .error (.duplicateObject (some "Multiple probes with same name.")) ∧
      get_group_by_name result
        = .error (.duplicateObject (some "Multiple groups with same name.")) ∧
      get_device_by_name result
        = .error (.duplicateObject (some "Multiple devices with same name."))) ∧
    ∀ x, result = [x] →
      get_probe_by_name result = .ok x ∧
      get_group_by_name result = .ok x ∧
      get_device_by_name result = .ok x := by
  refine ⟨?_, ?_, ?_⟩
  · rintro rfl
    exact ⟨rfl, rfl, rfl⟩
  · intro hlen
    rw [get_probe_by_name.eq_def, if_pos hlen, get_group_by_name.eq_def,
      if_pos hlen, get_device_by_name.eq_def, if_pos hlen]
    exact ⟨rfl, rfl, rfl⟩
  · rintro x rfl
    exact ⟨rfl, rfl, rfl⟩

/-- Claim C9 witness: the three outcomes at concrete result lists. -/
theorem get_by_name_selection_witness :
    get_probe_by_name []
      = .error (.objectNotFound (some "No probe with matching name.")) ∧
    get_group_by_name [⟨1, "A"⟩, ⟨2, "A"⟩]
      = .error (.duplicateObject (some "Multiple groups with same name.")) ∧
    get_device_by_name [⟨1, "A"⟩] = .ok ⟨1, "A"⟩ :=
  ⟨((get_by_name_selection []).1 rfl).1,
   ((get_by_name_selection [⟨1, "A"⟩, ⟨2, "A"⟩]).2.1 (by decide)).2.1,
   ((get_by_name_selection [⟨1, "A"⟩]).2.2 ⟨1, "A"⟩ rfl).2.2⟩

/-- Claim C10: `set_priority` raises `ValueError` for every integer
outside 1..5 before issuing any network request (the issued request list
is empty, so remote state is untouched), and raises no `ValueError` for
values inside the range (a single GET to `/api/setpriority.htm` is
issued). -/
theorem set_priority_range_check (id : Nat) (value : Int) :
    (value < 1 ∨ value > 5 →
      set_priority id value
        = (.error (.valueError "Priorty can only set between 1 - 5."), [])) ∧
    (1 ≤ value → value ≤ 5 →
      set_priority id value = (.ok (), [⟨"GET", "/api/setpriority.htm",
        [("id", toString id), ("prio", toString value)]⟩])) := by
  constructor
  · intro h
    rw [set_priority, if_pos h]
  · intro h1 h2
    have hno : ¬(value < 1 ∨ value > 5) := by omega
    rw [set_priority, if_neg hno]

/-- Claim C10 witness: value 7 is rejected with no request issued; value
3 issues the GET. -/
theorem set_priority_range_check_witness :
    set_priority 100 7
      = (.error (.valueError "Priorty can only set between 1 - 5."), []) ∧
    set_priority 100 3 = (.ok (), [⟨"GET", "/api/setpriority.htm",
      [("id", toString 100), ("prio", toString (3 : Int))]⟩]) :=
  ⟨(set_priority_range_check 100 7).1 (by omega),
   (set_priority_range_check 100 3).2 (by omega) (by omega)⟩

end Prtg
